import Mathlib

/-!
Verification of the invoice-sorting repository (willi202202/rechnungen_sort).

This file gives a shallow embedding, in Lean 4, of the pure computational
core of the repository: the locale-aware number and date normalizers, the
provider classification predicate, the per-vendor pattern extractors
(modelled as executable matchers implementing the semantics of the concrete
regular expressions used in the source), and the utility-invoice
reconciliation engine of `strom_table_verify.py`.

Modelling conventions:
* Python floats are modelled as exact rationals (`ℚ`); `float(f"{x:.2f}")`
  is modelled as rounding to an integer number of hundredths.
* Python strings are modelled as `String` / `List Char`; the Unicode
  whitespace set relevant to the inputs is modelled by `pyWhitespace`
  (ASCII whitespace plus the non-breaking space U+00A0), and case mapping
  is modelled on the ASCII range, which covers every keyword and every
  pattern literal appearing in the source.
* Functions that may fail (Python `None`, or a caught exception) return
  `Option`.
-/

namespace RechnungenSort

/-! ## Executable rational arithmetic

The library's rational-number operations are `@[irreducible]`, which stops
kernel evaluation of concrete values.  The embedding therefore computes
with explicit numerator/denominator formulas through `Rat.divInt` (which
does evaluate), and the lemmas below show once and for all that these
agree with the field operations of `ℚ`, so every theorem can be stated
with the ordinary operations. -/

def qofInt (n : Int) : ℚ :=
  Rat.divInt n 1

def qadd (a b : ℚ) : ℚ :=
  Rat.divInt (a.num * b.den + b.num * a.den) (a.den * b.den)

def qmul (a b : ℚ) : ℚ :=
  Rat.divInt (a.num * b.num) (a.den * b.den)

def qneg (a : ℚ) : ℚ :=
  Rat.divInt (-a.num) a.den

def qsub (a b : ℚ) : ℚ :=
  qadd a (qneg b)

def qdiv (a b : ℚ) : ℚ :=
  Rat.divInt (a.num * b.den) (a.den * b.num)

def qle (a b : ℚ) : Bool :=
  decide (a.num * (b.den : Int) ≤ b.num * (a.den : Int))

def qabs (a : ℚ) : ℚ :=
  if qle (qofInt 0) a then a else qneg a

def qpow10 (n : Nat) : ℚ :=
  qofInt ((10 : Int) ^ n)

theorem qofInt_eq (n : Int) : qofInt n = (n : ℚ) := by
  rw [qofInt, Rat.divInt_one]

theorem num_eq_self_mul_den (a : ℚ) : ((a.num : ℚ)) = a * a.den := by
  have h := Rat.num_div_den a
  rw [div_eq_iff (by exact_mod_cast a.den_nz)] at h
  exact h

theorem qadd_eq (a b : ℚ) : qadd a b = a + b := by
  have ha : ((a.den : ℚ)) ≠ 0 := by
    exact_mod_cast a.den_nz
  have hb : ((b.den : ℚ)) ≠ 0 := by
    exact_mod_cast b.den_nz
  rw [qadd, Rat.divInt_eq_div]
  push_cast
  rw [div_eq_iff (mul_ne_zero ha hb)]
  linear_combination (b.den : ℚ) * num_eq_self_mul_den a + (a.den : ℚ) * num_eq_self_mul_den b

theorem qmul_eq (a b : ℚ) : qmul a b = a * b := by
  have ha : ((a.den : ℚ)) ≠ 0 := by
    exact_mod_cast a.den_nz
  have hb : ((b.den : ℚ)) ≠ 0 := by
    exact_mod_cast b.den_nz
  rw [qmul, Rat.divInt_eq_div]
  push_cast
  rw [div_eq_iff (mul_ne_zero ha hb)]
  linear_combination (b.num : ℚ) * num_eq_self_mul_den a + (a * (a.den : ℚ)) * num_eq_self_mul_den b

theorem qneg_eq (a : ℚ) : qneg a = -a := by
  rw [qneg, Rat.divInt_eq_div]
  push_cast
  rw [neg_div, Rat.num_div_den]

theorem qsub_eq (a b : ℚ) : qsub a b = a - b := by
  rw [qsub, qadd_eq, qneg_eq, sub_eq_add_neg]

theorem qdiv_eq (a b : ℚ) : qdiv a b = a / b := by
  rcases eq_or_ne b 0 with hb | hb
  · subst hb
    simp [qdiv, Rat.divInt_eq_div]
  · have hbn : b.num ≠ 0 := Rat.num_ne_zero.2 hb
    have ha : ((a.den : ℚ)) ≠ 0 := by
      exact_mod_cast a.den_nz
    have hbd : ((b.den : ℚ)) ≠ 0 := by
      exact_mod_cast b.den_nz
    have hbnq : ((b.num : ℚ)) ≠ 0 := by
      exact_mod_cast hbn
    rw [qdiv, Rat.divInt_eq_div]
    push_cast
    rw [div_eq_div_iff (by exact mul_ne_zero ha hbnq) hb]
    linear_combination ((b.den : ℚ) * b) * num_eq_self_mul_den a - (a * (a.den : ℚ)) * num_eq_self_mul_den b

theorem qle_iff (a b : ℚ) : qle a b = true ↔ a ≤ b := by
  rw [qle, decide_eq_true_iff, Rat.le_def]

theorem qabs_eq (a : ℚ) : qabs a = |a| := by
  rw [qabs]
  rcases le_or_lt 0 a with h | h
  · rw [if_pos ((qle_iff _ _).2 (by rwa [qofInt_eq, Int.cast_zero])), abs_of_nonneg h]
  · rw [if_neg, qneg_eq, abs_of_neg h]
    rw [qle_iff, qofInt_eq, Int.cast_zero]
    exact not_le.2 h

theorem qpow10_eq (n : Nat) : qpow10 n = (10 : ℚ) ^ n := by
  rw [qpow10, qofInt_eq]
  push_cast
  ring

/-! ## Character and string helpers -/

/-- Whitespace as recognised by Python `str.strip()` / `float()` / the regex
class `\s` on the characters that can occur in this repository's data:
space, tab, newline, vertical tab, form feed, carriage return and the
non-breaking space U+00A0. -/
def pyWhitespace (c : Char) : Bool :=
  c == ' ' || c == Char.ofNat 9 || c == Char.ofNat 10 || c == Char.ofNat 11 ||
  c == Char.ofNat 12 || c == Char.ofNat 13 || c == Char.ofNat 160

/-- Strip leading and trailing `pyWhitespace` from a character list. -/
def pyStripList (cs : List Char) : List Char :=
  ((cs.dropWhile pyWhitespace).reverse.dropWhile pyWhitespace).reverse

/-- Python `str.strip()`. -/
def pyStrip (s : String) : String :=
  String.mk (pyStripList s.data)

/-- ASCII lower-casing of a character list (Python `str.lower()` on the
ASCII range). -/
def lowerList (cs : List Char) : List Char :=
  cs.map Char.toLower

/-- ASCII upper-casing of a character list (Python `str.upper()` on the
ASCII range). -/
def upperList (cs : List Char) : List Char :=
  cs.map Char.toUpper

/-- Numeric value of a list of decimal digit characters (most significant
first), as read by `int()` on a digit string. -/
def digitsVal (cs : List Char) : Nat :=
  cs.foldl (fun a c => 10 * a + (c.toNat - 48)) 0

/-- Render a natural number below 100 with a leading zero, as Python
`f"{n:02d}"` does for such numbers. -/
def pad2 (n : Nat) : String :=
  if n < 10 then "0" ++ toString n else toString n

/-! ## Python `float(string)` -/

/-- Core of Python `float(s)` on an already-stripped character list:
optional sign, then a decimal mantissa `digits [. digits]` containing at
least one digit, then an optional exponent part.  Returns `none` exactly
when Python would raise `ValueError` (the special values `inf`/`nan` and
digit-group underscores never occur in this repository's data and are
modelled as non-numeric). -/
def pyFloatCore (cs : List Char) : Option ℚ :=
  let signRest : ℚ × List Char :=
    match cs with
    | '+' :: t => (1, t)
    | '-' :: t => (-1, t)
    | t => (1, t)
  let sign := signRest.1
  let cs1 := signRest.2
  let ip := cs1.takeWhile Char.isDigit
  let rest1 := cs1.dropWhile Char.isDigit
  let fpRest : List Char × List Char :=
    match rest1 with
    | '.' :: t => (t.takeWhile Char.isDigit, t.dropWhile Char.isDigit)
    | t => ([], t)
  let fp := fpRest.1
  let rest2 := fpRest.2
  if ip.isEmpty && fp.isEmpty then none
  else
    let mant : ℚ :=
      qmul sign (qadd (qofInt (digitsVal ip)) (qdiv (qofInt (digitsVal fp)) (qpow10 fp.length)))
    match rest2 with
    | [] => some mant
    | e :: t =>
      if e == 'e' || e == 'E' then
        let esignRest : Int × List Char :=
          match t with
          | '+' :: u => (1, u)
          | '-' :: u => (-1, u)
          | u => (1, u)
        let ed := esignRest.2.takeWhile Char.isDigit
        let rest3 := esignRest.2.dropWhile Char.isDigit
        if ed.isEmpty || !rest3.isEmpty then none
        else
          let ex : Int := esignRest.1 * (digitsVal ed : Int)
          some (if 0 ≤ ex then qmul mant (qpow10 ex.toNat) else qdiv mant (qpow10 (-ex).toNat))
      else none

/-- Python `float(s)`: leading and trailing whitespace is allowed and
stripped, then the numeric literal must fill the rest of the string. -/
def pyFloat (s : String) : Option ℚ :=
  pyFloatCore (pyStripList s.data)

/-! ## `strom_table_verify.py` helpers -/

/-- Python truthiness of an optional string (`x or y` / `if not s`):
`None` and the empty string are falsy. -/
def pyOr (a b : Option String) : Option String :=
  match a with
  | none => b
  | some s => if s = "" then b else some s

/-- `num` from `strom_table_verify.py`: robust conversion of a CSV cell to
a number.  `None`, empty and `"none"` cells give 0; apostrophes, spaces and
non-breaking spaces are removed, a comma becomes a decimal point, and any
remaining parse failure degrades to 0. -/
def num (x : Option String) : ℚ :=
  match x with
  | none => 0
  | some raw =>
    let s := pyStripList raw.data
    if s.isEmpty || lowerList s == "none".data then 0
    else
      let s1 := s.filter fun c => !(c == Char.ofNat 39 || c == ' ' || c == Char.ofNat 160)
      let s2 := s1.map fun c => if c == ',' then '.' else c
      (pyFloat (String.mk s2)).getD 0

/-- Floor of a rational, computably (`q.den` is positive, so euclidean
division of the numerator by the denominator is the floor). -/
def qfloor (q : ℚ) : ℤ :=
  q.num / (q.den : ℤ)

/-- Rounding of a rational to the nearest integer, computably. -/
def roundQ (q : ℚ) : ℤ :=
  qfloor (qadd q (Rat.divInt 1 2))

theorem qfloor_eq_floor (q : ℚ) : qfloor q = ⌊q⌋ :=
  (Rat.floor_def).symm

theorem roundQ_eq_round (q : ℚ) : roundQ q = round q := by
  rw [round_eq, roundQ, qfloor_eq_floor, qadd_eq, Rat.divInt_eq_div]
  norm_num

/-- `round2` from `strom_table_verify.py`: `float(f"{x:.2f}")`, i.e. round
to a whole number of hundredths. -/
def round2 (x : ℚ) : ℚ :=
  Rat.divInt (roundQ (qmul (qofInt 100) x)) 100

/-- `round2` agrees with rounding `100 x` to the nearest integer and
scaling back. -/
theorem round2_eq (x : ℚ) : round2 x = ((round (100 * x) : ℤ) : ℚ) / 100 := by
  rw [round2, Rat.divInt_eq_div, roundQ_eq_round, qmul_eq, qofInt_eq]
  norm_num

theorem roundQ_intCast (n : ℤ) : roundQ (n : ℚ) = n := by
  rw [roundQ_eq_round, round_intCast]

/-- A difference of two already-rounded values is itself a whole number of
hundredths, so re-rounding it changes nothing. -/
theorem round2_sub_round2 (a b : ℚ) :
    round2 (round2 a - round2 b) = round2 a - round2 b := by
  simp only [round2_eq]
  have h : (100 : ℚ) * (((round (100 * a) : ℤ) : ℚ) / 100 - ((round (100 * b) : ℤ) : ℚ) / 100) =
      ((round (100 * a) - round (100 * b) : ℤ) : ℚ) := by
    push_cast
    ring
  rw [h, round_intCast]
  push_cast
  ring

/-- `yn_flag` from `strom_table_verify.py`. -/
def yn_flag (v : String) : Bool :=
  let s := lowerList (pyStripList v.data)
  s == "true".data || s == "1".data || s == "yes".data || s == "ja".data

/-! ## Dates (`parse_dmy`, `months_between`) -/

/-- A parsed calendar date, as produced by `datetime.strptime`. -/
structure PyDate where
  year : Int
  month : Nat
  day : Nat
deriving DecidableEq

/-- Number of days of a month, as validated by the `datetime` constructor. -/
def daysInMonth (y : Int) (m : Nat) : Nat :=
  if m = 2 then (if y % 4 = 0 ∧ (y % 100 ≠ 0 ∨ y % 400 = 0) then 29 else 28)
  else if m = 4 ∨ m = 6 ∨ m = 9 ∨ m = 11 then 30 else 31

/-- Candidates for the `strptime` day field `%d` (regex
`3[01]|[12]\d|0[1-9]|[1-9]`), in regex preference order: the two-digit
alternatives first, then the single-digit one. -/
def dayCandidates (cs : List Char) : List (Nat × List Char) :=
  let two : List (Nat × List Char) :=
    match cs with
    | a :: b :: t =>
      if (a == '3' && (b == '0' || b == '1')) ||
         ((a == '1' || a == '2') && b.isDigit) ||
         (a == '0' && ('1' ≤ b && b ≤ '9')) then
        [((a.toNat - 48) * 10 + (b.toNat - 48), t)]
      else []
    | _ => []
  let one : List (Nat × List Char) :=
    match cs with
    | a :: t => if '1' ≤ a && a ≤ '9' then [(a.toNat - 48, t)] else []
    | _ => []
  two ++ one

/-- Candidates for the `strptime` month field `%m` (regex
`1[0-2]|0[1-9]|[1-9]`), in regex preference order. -/
def monthCandidates (cs : List Char) : List (Nat × List Char) :=
  let two : List (Nat × List Char) :=
    match cs with
    | a :: b :: t =>
      if (a == '1' && (b == '0' || b == '1' || b == '2')) ||
         (a == '0' && ('1' ≤ b && b ≤ '9')) then
        [((a.toNat - 48) * 10 + (b.toNat - 48), t)]
      else []
    | _ => []
  let one : List (Nat × List Char) :=
    match cs with
    | a :: t => if '1' ≤ a && a ≤ '9' then [(a.toNat - 48, t)] else []
    | _ => []
  two ++ one

/-- Regex part of `strptime` for the anchored formats `%d.%m.%Y` /
`%d.%m.%y`: day, literal dot, month, literal dot, then exactly four digits
(for `%Y`) or exactly two digits with the CPython pivot 00-68 → 2000s,
69-99 → 1900s (for `%y`), and end of string. -/
def matchDMY (twoDigitYear : Bool) (cs : List Char) : Option (Nat × Nat × Int) :=
  (dayCandidates cs).findSome? fun dc =>
    match dc.2 with
    | '.' :: cs1 =>
      (monthCandidates cs1).findSome? fun mc =>
        match mc.2 with
        | '.' :: cs2 =>
          if twoDigitYear then
            match cs2 with
            | [a, b] =>
              if a.isDigit && b.isDigit then
                let yy := (a.toNat - 48) * 10 + (b.toNat - 48)
                some (dc.1, mc.1, (if yy ≤ 68 then 2000 + yy else 1900 + yy : Int))
              else none
            | _ => none
          else
            match cs2 with
            | [a, b, c, d] =>
              if a.isDigit && b.isDigit && c.isDigit && d.isDigit then
                some (dc.1, mc.1, (digitsVal [a, b, c, d] : Int))
              else none
            | _ => none
        | _ => none
    | _ => none

/-- `strptime(s, fmt)` for the two formats used by `parse_dmy`: the regex
match followed by the `datetime` constructor's validation (year at least 1,
day within the month). -/
def strptimeDMY (twoDigitYear : Bool) (cs : List Char) : Option PyDate :=
  match matchDMY twoDigitYear cs with
  | none => none
  | some (d, m, y) =>
    if 1 ≤ y ∧ d ≤ daysInMonth y m then some ⟨y, m, d⟩ else none

/-- `parse_dmy` from `strom_table_verify.py`: `None` on a missing or blank
cell, otherwise try the formats `%d.%m.%Y` then `%d.%m.%y` on the stripped
string. -/
def parse_dmy (s : Option String) : Option PyDate :=
  match s with
  | none => none
  | some str =>
    if (pyStripList str.data).isEmpty then none
    else
      match strptimeDMY false (pyStripList str.data) with
      | some d => some d
      | none => strptimeDMY true (pyStripList str.data)

/-- `months_between` from `strom_table_verify.py`: whole months between two
optional dates, one month removed when the end day precedes the start day,
floored at 0; 0 when either date is missing. -/
def months_between : Option PyDate → Option PyDate → ℚ
  | some d1, some d2 =>
    let m : Int := (d2.year - d1.year) * 12 + ((d2.month : Int) - (d1.month : Int))
    let m' : Int := if d2.day < d1.day then m - 1 else m
    qofInt (max m' 0)
  | _, _ => 0

/-! ## The reconciliation engine (`recompute_row`) -/

/-- One row of `strom.csv` as read by `recompute_row`: every cell is an
optional string (a missing column or a NaN cell is `none`). -/
structure Row where
  HT_Bezug_kWh : Option String
  NT_Bezug_KWh : Option String
  NT_Bezug_kWh : Option String
  HT_Energie_Ansatz_CHF_kWh : Option String
  NT_Energie_Ansatz_CHF_kWh : Option String
  HT_Netznutzung_Ansatz_CHF_kWh : Option String
  NT_Netznutzung_Ansatz_CHF_kWh : Option String
  Systemdienstleistungen_Ansatz_CHF : Option String
  KEV_Ansatz_CHF : Option String
  Abgabe_Gemeinde_Ansatz_CHF : Option String
  Stromreserve_Ansatz_CHF : Option String
  Grundpreis_Messstelle_Ansatz_CHF : Option String
  Grundpreis_verrechnet : Option String
  Zeitraum_von : Option String
  Zeitraum_bis : Option String
  MWST_Satz_prozent : Option String
  Total_Objekt_CHF : Option String
deriving DecidableEq

/-- The result dictionary built by `recompute_row`. -/
structure RowResult where
  Monate_Grundpreis : ℚ
  Exkl_Energie_CHF : ℚ
  Exkl_Netznutzung_CHF : ℚ
  Exkl_Abgaben_CHF : ℚ
  Exkl_Grundpreis_CHF : ℚ
  Exkl_Summe_CHF : ℚ
  MWST_Satz_prozent : ℚ
  MWST_Betrag_CHF : ℚ
  Recalc_Total_Inkl_CHF : ℚ
  Total_Objekt_CHF : ℚ
  Delta_CHF : ℚ
  OK : Bool
deriving DecidableEq

/-- `recompute_row` from `strom_table_verify.py`, line by line (written
with the executable rational operations `qadd`/`qmul`/`qsub`/`qdiv`, which
agree with `+`/`*`/`-`/`/` on `ℚ` by the lemmas above). -/
def recompute_row (row : Row) : RowResult :=
  let ht_kwh := num row.HT_Bezug_kWh
  let nt_kwh := num (pyOr row.NT_Bezug_KWh row.NT_Bezug_kWh)
  let tot_kwh := qadd ht_kwh nt_kwh
  let ht_e := num row.HT_Energie_Ansatz_CHF_kWh
  let nt_e := num row.NT_Energie_Ansatz_CHF_kWh
  let ht_n := num row.HT_Netznutzung_Ansatz_CHF_kWh
  let nt_n := num row.NT_Netznutzung_Ansatz_CHF_kWh
  let sysd := num row.Systemdienstleistungen_Ansatz_CHF
  let kev := num row.KEV_Ansatz_CHF
  let gem := num row.Abgabe_Gemeinde_Ansatz_CHF
  let res := num row.Stromreserve_Ansatz_CHF
  let gp_ans := num row.Grundpreis_Messstelle_Ansatz_CHF
  let gp_verr := yn_flag (row.Grundpreis_verrechnet.getD "")
  let d_von := parse_dmy row.Zeitraum_von
  let d_bis := parse_dmy row.Zeitraum_bis
  let monate := months_between d_von d_bis
  let exkl_grundpreis := qmul (qmul gp_ans monate) (if gp_verr then qofInt 1 else qofInt 0)
  let mwst_rate := qdiv (num row.MWST_Satz_prozent) (qofInt 100)
  let exkl_energie := qadd (qmul ht_kwh ht_e) (qmul nt_kwh nt_e)
  let exkl_netznutzung := qadd (qmul ht_kwh ht_n) (qmul nt_kwh nt_n)
  let exkl_abgaben := qmul tot_kwh (qadd (qadd (qadd sysd kev) gem) res)
  let exkl_summe := qadd (qadd (qadd exkl_energie exkl_netznutzung) exkl_abgaben) exkl_grundpreis
  let mwst_betrag := qmul exkl_summe mwst_rate
  let inkl_summe := qadd exkl_summe mwst_betrag
  let total_rechnung := num row.Total_Objekt_CHF
  let delta := qsub (round2 inkl_summe) (round2 total_rechnung)
  let ok : Bool := qle (qabs delta) (Rat.divInt 5 100)
  { Monate_Grundpreis := monate
    Exkl_Energie_CHF := round2 exkl_energie
    Exkl_Netznutzung_CHF := round2 exkl_netznutzung
    Exkl_Abgaben_CHF := round2 exkl_abgaben
    Exkl_Grundpreis_CHF := round2 exkl_grundpreis
    Exkl_Summe_CHF := round2 exkl_summe
    MWST_Satz_prozent := round2 (qmul mwst_rate (qofInt 100))
    MWST_Betrag_CHF := round2 mwst_betrag
    Recalc_Total_Inkl_CHF := round2 inkl_summe
    Total_Objekt_CHF := round2 total_rechnung
    Delta_CHF := round2 delta
    OK := ok }

/-- The unrounded energy component of `recompute_row`. -/
def rawEnergie (row : Row) : ℚ :=
  num row.HT_Bezug_kWh * num row.HT_Energie_Ansatz_CHF_kWh +
  num (pyOr row.NT_Bezug_KWh row.NT_Bezug_kWh) * num row.NT_Energie_Ansatz_CHF_kWh

/-- The unrounded network-usage component of `recompute_row`. -/
def rawNetznutzung (row : Row) : ℚ :=
  num row.HT_Bezug_kWh * num row.HT_Netznutzung_Ansatz_CHF_kWh +
  num (pyOr row.NT_Bezug_KWh row.NT_Bezug_kWh) * num row.NT_Netznutzung_Ansatz_CHF_kWh

/-- The unrounded levies component of `recompute_row`. -/
def rawAbgaben (row : Row) : ℚ :=
  (num row.HT_Bezug_kWh + num (pyOr row.NT_Bezug_KWh row.NT_Bezug_kWh)) *
    (num row.Systemdienstleistungen_Ansatz_CHF + num row.KEV_Ansatz_CHF +
     num row.Abgabe_Gemeinde_Ansatz_CHF + num row.Stromreserve_Ansatz_CHF)

/-- The unrounded fixed-fee component of `recompute_row`. -/
def rawGrundpreis (row : Row) : ℚ :=
  num row.Grundpreis_Messstelle_Ansatz_CHF *
    months_between (parse_dmy row.Zeitraum_von) (parse_dmy row.Zeitraum_bis) *
    (if yn_flag (row.Grundpreis_verrechnet.getD "") then (1 : ℚ) else 0)

/-- The unrounded subtotal (excl. VAT) of `recompute_row`. -/
def rawSumme (row : Row) : ℚ :=
  rawEnergie row + rawNetznutzung row + rawAbgaben row + rawGrundpreis row

/-- The VAT rate used by `recompute_row`. -/
def mwstRate (row : Row) : ℚ :=
  num row.MWST_Satz_prozent / 100

/-! ## Claims C1, C2, C8: the reconciliation engine -/

/-- C1: for every utility-invoice object row, `recompute_row` marks the
result within tolerance (`OK`) iff the absolute difference between the
recomputed total incl. VAT and the stated object total (both as reported
in the result) is at most 0.05 CHF, and it always reports the signed delta
(recomputed minus stated), whether or not the check passes. -/
theorem recompute_row_tolerance_iff_and_delta (row : Row) :
    ((recompute_row row).OK = true ↔
        |(recompute_row row).Recalc_Total_Inkl_CHF - (recompute_row row).Total_Objekt_CHF| ≤
          5 / 100) ∧
    (recompute_row row).Delta_CHF =
      (recompute_row row).Recalc_Total_Inkl_CHF - (recompute_row row).Total_Objekt_CHF := by
  constructor
  · simp only [recompute_row]
    rw [qle_iff, qabs_eq, qsub_eq, Rat.divInt_eq_div]
    norm_num
  · simp only [recompute_row]
    rw [qsub_eq, round2_sub_round2]

/-- C2 (amended): each monetary field of the result is rounded to 2
decimal places once, when it is emitted: the subtotal, the VAT amount and
the recomputed total are computed from the unrounded components (not from
the individually rounded ones), and only the final recomputed total and
the stated total are rounded before the tolerance comparison. -/
theorem recompute_row_rounding_points (row : Row) :
    (recompute_row row).Exkl_Energie_CHF = round2 (rawEnergie row) ∧
    (recompute_row row).Exkl_Netznutzung_CHF = round2 (rawNetznutzung row) ∧
    (recompute_row row).Exkl_Abgaben_CHF = round2 (rawAbgaben row) ∧
    (recompute_row row).Exkl_Grundpreis_CHF = round2 (rawGrundpreis row) ∧
    (recompute_row row).Exkl_Summe_CHF = round2 (rawSumme row) ∧
    (recompute_row row).MWST_Betrag_CHF = round2 (rawSumme row * mwstRate row) ∧
    (recompute_row row).Recalc_Total_Inkl_CHF =
      round2 (rawSumme row + rawSumme row * mwstRate row) ∧
    ((recompute_row row).OK = true ↔
      |round2 (rawSumme row + rawSumme row * mwstRate row) -
          round2 (num row.Total_Objekt_CHF)| ≤ 5 / 100) := by
  simp only [recompute_row, rawSumme, rawEnergie, rawNetznutzung, rawAbgaben, rawGrundpreis,
    mwstRate, qle_iff, qabs_eq, qadd_eq, qmul_eq, qsub_eq, qdiv_eq, qofInt_eq, Int.cast_one,
    Int.cast_zero, Int.cast_ofNat, Int.cast_natCast]
  rw [Rat.divInt_eq_div]
  norm_num

/-- The row used to separate the code's rounding order from the rounding
order asserted by the specification: two components of 0.004 CHF each. -/
def rowComponents004 : Row :=
  { HT_Bezug_kWh := some "1"
    NT_Bezug_KWh := none
    NT_Bezug_kWh := none
    HT_Energie_Ansatz_CHF_kWh := some "0.004"
    NT_Energie_Ansatz_CHF_kWh := none
    HT_Netznutzung_Ansatz_CHF_kWh := some "0.004"
    NT_Netznutzung_Ansatz_CHF_kWh := none
    Systemdienstleistungen_Ansatz_CHF := none
    KEV_Ansatz_CHF := none
    Abgabe_Gemeinde_Ansatz_CHF := none
    Stromreserve_Ansatz_CHF := none
    Grundpreis_Messstelle_Ansatz_CHF := none
    Grundpreis_verrechnet := none
    Zeitraum_von := none
    Zeitraum_bis := none
    MWST_Satz_prozent := none
    Total_Objekt_CHF := none }

/-- C2 (counterexample): on a row with energy cost 0.004 and network cost
0.004, the engine reports the subtotal 0.01 (rounding the unrounded sum
0.008), while summing the individually rounded components — the order the
specification asserts — gives 0.00.  So the components are not rounded
before being summed into the subtotal. -/
theorem recompute_row_not_componentwise_rounded :
    (recompute_row rowComponents004).Exkl_Summe_CHF = 1 / 100 ∧
    round2 ((recompute_row rowComponents004).Exkl_Energie_CHF +
        (recompute_row rowComponents004).Exkl_Netznutzung_CHF +
        (recompute_row rowComponents004).Exkl_Abgaben_CHF +
        (recompute_row rowComponents004).Exkl_Grundpreis_CHF) = 0 ∧
    (1 / 100 : ℚ) ≠ 0 := by
  have h1 : (recompute_row rowComponents004).Exkl_Summe_CHF = Rat.divInt 1 100 := by
    decide
  have e1 : (recompute_row rowComponents004).Exkl_Energie_CHF = 0 := by
    decide
  have e2 : (recompute_row rowComponents004).Exkl_Netznutzung_CHF = 0 := by
    decide
  have e3 : (recompute_row rowComponents004).Exkl_Abgaben_CHF = 0 := by
    decide
  have e4 : (recompute_row rowComponents004).Exkl_Grundpreis_CHF = 0 := by
    decide
  refine ⟨?_, ?_, by norm_num⟩
  · rw [h1, Rat.divInt_eq_div]
    norm_num
  · rw [e1, e2, e3, e4, round2_eq]
    norm_num

/-- C8: `months_between` computes
`(end.year − start.year) * 12 + (end.month − start.month)`, minus 1 when
the end day precedes the start day, floored at 0; in particular three
whole months lie between 01.07.2025 and 01.10.2025, and two between
15.07.2025 and 01.10.2025 (day-rollback rule). -/
theorem months_between_formula_and_examples :
    (∀ d1 d2 : PyDate,
        months_between (some d1) (some d2) =
          ((max ((d2.year - d1.year) * 12 + ((d2.month : Int) - (d1.month : Int)) -
              (if d2.day < d1.day then 1 else 0)) 0 : Int) : ℚ)) ∧
    months_between (parse_dmy (some "01.07.2025")) (parse_dmy (some "01.10.2025")) = 3 ∧
    months_between (parse_dmy (some "15.07.2025")) (parse_dmy (some "01.10.2025")) = 2 := by
  refine ⟨?_, by decide, by decide⟩
  intro d1 d2
  simp only [months_between, qofInt_eq]
  by_cases h : d2.day < d1.day
  · simp [h]
  · simp [h]

/-! ## The two-digit-year date scanners (claim C3)

`scan_move_strom.py` and `konto_filter_by_keyword.py` both define a
`normalize_date_ddmmyy` over the anchored pattern
`(\d{2})\.(\d{2})\.(\d{2}|\d{4})$`, but expand a two-digit year
differently. -/

/-- Matcher for `re.match(r"(\d{2})\.(\d{2})\.(\d{2}|\d{4})$", s)`: two
digits, a dot, two digits, a dot, then exactly two or exactly four digits
ending the string; returns the three capture groups. -/
def matchDDMMYY (cs : List Char) : Option (List Char × List Char × List Char) :=
  match cs with
  | a :: b :: '.' :: c :: d :: '.' :: rest =>
    if a.isDigit && b.isDigit && c.isDigit && d.isDigit then
      match rest with
      | [e, f] =>
        if e.isDigit && f.isDigit then some ([a, b], [c, d], [e, f]) else none
      | [e, f, g, h] =>
        if e.isDigit && f.isDigit && g.isDigit && h.isDigit then
          some ([a, b], [c, d], [e, f, g, h])
        else none
      | _ => none
    else none
  | _ => none

/-- `normalize_date_ddmmyy` from `old/v0/scan_move_strom.py`: the input is
stripped; a non-matching input is returned (stripped) unchanged; a
two-digit year expands through the pivot `yy ≤ 79 → 2000s, else 1900s`;
the day and month groups are emitted verbatim. -/
def normalize_date_ddmmyy_strom (date_str : String) : String :=
  let s := pyStripList date_str.data
  match matchDDMMYY s with
  | none => String.mk s
  | some (d, mth, y) =>
    let year : Nat :=
      if y.length = 2 then
        (if digitsVal y ≤ 79 then 2000 + digitsVal y else 1900 + digitsVal y)
      else digitsVal y
    String.mk d ++ "." ++ String.mk mth ++ "." ++ toString year

/-- `normalize_date_ddmmyy` from `old/v0/konto_filter_by_keyword.py`: a
non-matching input is returned unstripped; every two-digit year expands
unconditionally to the 2000s; day and month are re-rendered with `{:02d}`. -/
def normalize_date_ddmmyy_konto (date_str : String) : String :=
  match matchDDMMYY (pyStripList date_str.data) with
  | none => date_str
  | some (d, mth, y) =>
    let year : Nat := if y.length = 2 then 2000 + digitsVal y else digitsVal y
    pad2 (digitsVal d) ++ "." ++ pad2 (digitsVal mth) ++ "." ++ toString year

theorem pyWhitespace_eq_false_of_isDigit (c : Char) (h : c.isDigit = true) :
    pyWhitespace c = false := by
  rcases Decidable.em (c = ' ') with rfl | h1
  · exact absurd h (by decide)
  rcases Decidable.em (c = Char.ofNat 9) with rfl | h2
  · exact absurd h (by decide)
  rcases Decidable.em (c = Char.ofNat 10) with rfl | h3
  · exact absurd h (by decide)
  rcases Decidable.em (c = Char.ofNat 11) with rfl | h4
  · exact absurd h (by decide)
  rcases Decidable.em (c = Char.ofNat 12) with rfl | h5
  · exact absurd h (by decide)
  rcases Decidable.em (c = Char.ofNat 13) with rfl | h6
  · exact absurd h (by decide)
  rcases Decidable.em (c = Char.ofNat 160) with rfl | h7
  · exact absurd h (by decide)
  simp [pyWhitespace, h1, h2, h3, h4, h5, h6, h7]

theorem dropWhile_eq_self_of_forall (p : Char → Bool) (l : List Char)
    (h : ∀ c ∈ l, p c = false) : l.dropWhile p = l := by
  cases l with
  | nil => rfl
  | cons a t =>
    rw [List.dropWhile_cons, h a (by simp)]
    simp

theorem pyStripList_eq_self_of_forall (l : List Char)
    (h : ∀ c ∈ l, pyWhitespace c = false) : pyStripList l = l := by
  unfold pyStripList
  rw [dropWhile_eq_self_of_forall _ _ h,
    dropWhile_eq_self_of_forall _ _ (by simpa using h), List.reverse_reverse]

/-- C3 (counterexample): the strom scanner expands 25 to 2025 — not to
1925 as the claimed pivot direction (YY ≤ 79 → 1900s) would require — and
expands 85 to 1985 — not to 2085. -/
theorem normalize_date_pivot_counterexample :
    normalize_date_ddmmyy_strom "01.07.25" = "01.07.2025" ∧
    normalize_date_ddmmyy_strom "01.07.25" ≠ "01.07.1925" ∧
    normalize_date_ddmmyy_strom "01.07.85" = "01.07.1985" ∧
    normalize_date_ddmmyy_strom "01.07.85" ≠ "01.07.2085" := by
  refine ⟨by decide, by decide, by decide, by decide⟩

/-- C3 (amended): for every date string `DD.MM.YY` (all-digit groups), the
generic scanner of `scan_move_strom.py` expands the two-digit year to
`2000 + YY` when `YY ≤ 79` and to `1900 + YY` otherwise, while the scanner
of `konto_filter_by_keyword.py` expands every two-digit year to
`2000 + YY`; in particular both map "01.07.25" to "01.07.2025". -/
theorem normalize_date_pivot_amended (d1 d2 m1 m2 y1 y2 : Char)
    (hd1 : d1.isDigit = true) (hd2 : d2.isDigit = true)
    (hm1 : m1.isDigit = true) (hm2 : m2.isDigit = true)
    (hy1 : y1.isDigit = true) (hy2 : y2.isDigit = true) :
    normalize_date_ddmmyy_strom (String.mk [d1, d2, '.', m1, m2, '.', y1, y2]) =
      String.mk [d1, d2] ++ "." ++ String.mk [m1, m2] ++ "." ++
        toString (if digitsVal [y1, y2] ≤ 79 then 2000 + digitsVal [y1, y2]
          else 1900 + digitsVal [y1, y2]) ∧
    normalize_date_ddmmyy_konto (String.mk [d1, d2, '.', m1, m2, '.', y1, y2]) =
      pad2 (digitsVal [d1, d2]) ++ "." ++ pad2 (digitsVal [m1, m2]) ++ "." ++
        toString (2000 + digitsVal [y1, y2]) ∧
    normalize_date_ddmmyy_strom "01.07.25" = "01.07.2025" ∧
    normalize_date_ddmmyy_konto "01.07.25" = "01.07.2025" := by
  have hdot : ('.' : Char).isDigit = false := by decide
  have hs : pyStripList [d1, d2, '.', m1, m2, '.', y1, y2] =
      [d1, d2, '.', m1, m2, '.', y1, y2] := by
    refine pyStripList_eq_self_of_forall _ ?_
    intro c hc
    simp only [List.mem_cons, List.not_mem_nil, or_false] at hc
    rcases hc with rfl | rfl | rfl | rfl | rfl | rfl | rfl | rfl
    · exact pyWhitespace_eq_false_of_isDigit _ hd1
    · exact pyWhitespace_eq_false_of_isDigit _ hd2
    · decide
    · exact pyWhitespace_eq_false_of_isDigit _ hm1
    · exact pyWhitespace_eq_false_of_isDigit _ hm2
    · decide
    · exact pyWhitespace_eq_false_of_isDigit _ hy1
    · exact pyWhitespace_eq_false_of_isDigit _ hy2
  have hmatch : matchDDMMYY [d1, d2, '.', m1, m2, '.', y1, y2] =
      some ([d1, d2], [m1, m2], [y1, y2]) := by
    simp [matchDDMMYY, hd1, hd2, hm1, hm2, hy1, hy2]
  refine ⟨?_, ?_, by decide, by decide⟩
  · simp [normalize_date_ddmmyy_strom, hs, hmatch]
  · simp [normalize_date_ddmmyy_konto, hs, hmatch]

/-- Witness for the amended date-pivot theorem at the digits of
"01.07.25". -/
theorem normalize_date_pivot_amended_witness :
    (('0' : Char).isDigit = true ∧ ('1' : Char).isDigit = true ∧ ('7' : Char).isDigit = true ∧
      ('2' : Char).isDigit = true ∧ ('5' : Char).isDigit = true) ∧
    (normalize_date_ddmmyy_strom (String.mk ['0', '1', '.', '0', '7', '.', '2', '5']) =
        String.mk ['0', '1'] ++ "." ++ String.mk ['0', '7'] ++ "." ++
          toString (if digitsVal ['2', '5'] ≤ 79 then 2000 + digitsVal ['2', '5']
            else 1900 + digitsVal ['2', '5']) ∧
      normalize_date_ddmmyy_konto (String.mk ['0', '1', '.', '0', '7', '.', '2', '5']) =
        pad2 (digitsVal ['0', '1']) ++ "." ++ pad2 (digitsVal ['0', '7']) ++ "." ++
          toString (2000 + digitsVal ['2', '5']) ∧
      normalize_date_ddmmyy_strom "01.07.25" = "01.07.2025" ∧
      normalize_date_ddmmyy_konto "01.07.25" = "01.07.2025") :=
  ⟨by decide, normalize_date_pivot_amended '0' '1' '0' '7' '2' '5' (by decide) (by decide)
    (by decide) (by decide) (by decide) (by decide)⟩

/-! ## Provider classification (claims C4 and C10) -/

/-- A provider as classification sees it: a readable name and the
`REQUIRED_KEYWORDS` list (`base_provider.py`). -/
structure Provider where
  name : String
  REQUIRED_KEYWORDS : List String
deriving DecidableEq

/-- The normalisation applied to the document text by
`InvoiceProvider.matches`: `text.upper().replace("\xa0", " ")`. -/
def pyUpperNbsp (s : String) : List Char :=
  (upperList s.data).map fun c => if c == Char.ofNat 160 then ' ' else c

/-- Substring occurrence (Python `in` on strings). -/
def containsSub (needle haystack : List Char) : Bool :=
  match haystack with
  | [] => needle.isEmpty
  | x :: t => needle.isPrefixOf (x :: t) || containsSub needle t

/-- `InvoiceProvider.matches` from `base_provider.py` (named `providerMatches`
here, `matches` being reserved): a provider with no
required keywords never matches; otherwise every keyword, upper-cased,
must occur in the upper-cased text with non-breaking spaces replaced by
regular spaces. -/
def providerMatches (p : Provider) (text : String) : Bool :=
  if p.REQUIRED_KEYWORDS.isEmpty then false
  else
    let upper := pyUpperNbsp text
    p.REQUIRED_KEYWORDS.all fun kw => containsSub (upperList kw.data) upper

/-- The SZKB provider's registry entry (`szkb_provider.py`). -/
def SZKBProviderReg : Provider :=
  ⟨"SZKB_Privatkonto", ["Schwyzer Kantonalbank", "Privatkonto", "812186-0560"]⟩

/-- The Swisscom provider's registry entry (`swisscom_provider.py`). -/
def SwisscomProviderReg : Provider :=
  ⟨"Swisscom", ["Swisscom (Schweiz) AG", "Rechnungstotal in CHF inkl. MWST"]⟩

/-- The Swisscard provider's registry entry (`swisscard_provider.py`). -/
def SwisscardProviderReg : Provider :=
  ⟨"Swisscard", ["Swisscard AECS GmbH", "Cashback Cards", "1001 0765 294"]⟩

/-- The provider list of `sort_all.py`, in its priority order. -/
def providerRegistry : List Provider :=
  [SZKBProviderReg, SwisscomProviderReg, SwisscardProviderReg]

/-- The classification loop of `sort_all.py`: the first provider in the
list whose `providerMatches` accepts the text, `none` when none does. -/
def classify (ps : List Provider) (text : String) : Option Provider :=
  ps.find? fun p => providerMatches p text

theorem find?_eq_some_first {α} (p : α → Bool) (l : List α) (a : α)
    (h : l.find? p = some a) :
    ∃ l1 l2, l = l1 ++ a :: l2 ∧ p a = true ∧ ∀ x ∈ l1, p x = false := by
  induction l with
  | nil => simp at h
  | cons b t ih =>
    rw [List.find?_cons] at h
    cases hb : p b with
    | false =>
      rw [hb] at h
      obtain ⟨l1, l2, hl, hpa, hl1⟩ := ih h
      refine ⟨b :: l1, l2, by rw [hl, List.cons_append], hpa, ?_⟩
      intro x hx
      rcases List.mem_cons.1 hx with rfl | hx
      · exact hb
      · exact hl1 x hx
    | true =>
      rw [hb] at h
      simp only [Option.some.injEq] at h
      subst h
      exact ⟨[], t, rfl, hb, by simp⟩

/-- C4: classification is a deterministic first-match over the fixed
registry: a registry provider matches iff every required keyword occurs
(case-insensitively, after non-breaking-space normalisation) in the text,
`classify` returns the first matching provider in registry order, and it
returns `none` — a normal outcome — exactly when no provider matches. -/
theorem classify_first_match (p : Provider) (t : String) (hp : p ∈ providerRegistry) :
    (providerMatches p t = true ↔
        ∀ kw ∈ p.REQUIRED_KEYWORDS, containsSub (upperList kw.data) (pyUpperNbsp t) = true) ∧
    (classify providerRegistry t = none ↔ ∀ q ∈ providerRegistry, providerMatches q t = false) ∧
    (∀ q, classify providerRegistry t = some q →
        ∃ l1 l2, providerRegistry = l1 ++ q :: l2 ∧ providerMatches q t = true ∧
          ∀ r ∈ l1, providerMatches r t = false) := by
  refine ⟨?_, ?_, ?_⟩
  · simp only [providerRegistry, List.mem_cons, List.not_mem_nil, or_false] at hp
    rcases hp with rfl | rfl | rfl <;>
      simp [providerMatches, SZKBProviderReg, SwisscomProviderReg, SwisscardProviderReg,
        List.all_eq_true]
  · rw [classify, List.find?_eq_none]
    constructor
    · intro h q hq
      simpa using h q hq
    · intro h q hq
      simp [h q hq]
  · intro q hq
    exact find?_eq_some_first _ _ _ hq

/-- Witness for the classification theorem at the SZKB registry entry and
a concrete document text. -/
theorem classify_first_match_witness :
    SZKBProviderReg ∈ providerRegistry ∧
    ((providerMatches SZKBProviderReg "statement" = true ↔
        ∀ kw ∈ SZKBProviderReg.REQUIRED_KEYWORDS,
          containsSub (upperList kw.data) (pyUpperNbsp "statement") = true) ∧
    (classify providerRegistry "statement" = none ↔
        ∀ q ∈ providerRegistry, providerMatches q "statement" = false) ∧
    (∀ q, classify providerRegistry "statement" = some q →
        ∃ l1 l2, providerRegistry = l1 ++ q :: l2 ∧ providerMatches q "statement" = true ∧
          ∀ r ∈ l1, providerMatches r "statement" = false)) :=
  ⟨by decide, classify_first_match SZKBProviderReg "statement" (by decide)⟩

/-- C10: a provider whose required-keyword list is empty never matches any
text — even though "every keyword occurs" holds vacuously — and therefore
is never the result of classification, whatever the registry. -/
theorem matches_empty_keywords_never_selected (p : Provider) (t : String)
    (ps : List Provider) (hp : p.REQUIRED_KEYWORDS = []) :
    providerMatches p t = false ∧ classify ps t ≠ some p := by
  have hm : providerMatches p t = false := by
    simp [providerMatches, hp]
  refine ⟨hm, fun hc => ?_⟩
  have h2 := List.find?_some hc
  rw [hm] at h2
  exact Bool.false_ne_true h2

/-- A keyword-less provider, and a text containing all of the Swisscom
provider's keywords, witnessing that even then the keyword-less provider
is never selected. -/
def emptyKeywordProvider : Provider :=
  ⟨"Leer", []⟩

/-- Witness for the empty-keyword theorem: the keyword-less provider is
placed ahead of the registry and the text satisfies another provider's
keywords, yet it never matches and is never selected. -/
theorem matches_empty_keywords_never_selected_witness :
    emptyKeywordProvider.REQUIRED_KEYWORDS = [] ∧
    (providerMatches emptyKeywordProvider
        "Swisscom (Schweiz) AG Rechnungstotal in CHF inkl. MWST 11.70" = false ∧
      classify (emptyKeywordProvider :: providerRegistry)
        "Swisscom (Schweiz) AG Rechnungstotal in CHF inkl. MWST 11.70" ≠
        some emptyKeywordProvider) :=
  ⟨rfl, matches_empty_keywords_never_selected emptyKeywordProvider
    "Swisscom (Schweiz) AG Rechnungstotal in CHF inkl. MWST 11.70"
    (emptyKeywordProvider :: providerRegistry) rfl⟩

/-! ## Amount normalisation (claim C6) -/

/-- `normalize_amount`, as defined identically in `swisscard_provider.py`
and `szkb_provider.py` (and as `normalize_amount_for_number` in
`swisscom_provider.py`): apostrophes and regular spaces are removed; with
both a comma and a dot present, dots are removed and the comma becomes the
decimal point; a lone comma becomes the decimal point; any remaining parse
failure yields `none`. -/
def normalize_amount (amount_str : String) : Option ℚ :=
  let s1 := amount_str.data.filter fun c => !(c == Char.ofNat 39 || c == ' ')
  let s2 :=
    if s1.contains ',' && s1.contains '.' then
      (s1.filter fun c => !(c == '.')).map fun c => if c == ',' then '.' else c
    else if s1.contains ',' then
      s1.map fun c => if c == ',' then '.' else c
    else s1
  pyFloat (String.mk s2)

/-- An amount string with an interior non-breaking space as thousands
separator. -/
def nbspAmount : String :=
  String.mk ['1', Char.ofNat 160, '2', '3', '4', '.', '5', '0']

/-- C6 (counterexample): `normalize_amount` does not strip the
non-breaking space: on "1 234.50" it returns `none` instead of the
1234.50 the claim asserts. -/
theorem normalize_amount_nbsp_counterexample :
    normalize_amount nbspAmount = none ∧ normalize_amount nbspAmount ≠ some (1234.50 : ℚ) := by
  have h : normalize_amount nbspAmount = none := by decide
  exact ⟨h, by rw [h]; simp⟩

/-- C6 (amended): `normalize_amount` strips apostrophes and regular spaces
(the result only depends on the string after removing them) but not
non-breaking spaces; with both comma and dot present the dot is the
thousands separator and the comma the decimal separator, otherwise a lone
comma is the decimal separator; non-numeric residue gives `none`, never an
exception; in particular "1'234.50" gives 1234.50. -/
theorem normalize_amount_amended :
    (∀ s : String,
        normalize_amount s =
          normalize_amount (String.mk (s.data.filter fun c => !(c == Char.ofNat 39 || c == ' ')))) ∧
    normalize_amount "1'234.50" = some (1234.50 : ℚ) ∧
    normalize_amount "1.234,50" = some (1234.50 : ℚ) ∧
    normalize_amount "1 234,50" = some (1234.50 : ℚ) ∧
    normalize_amount "CHF" = none := by
  have hval : (1234.50 : ℚ) = Rat.divInt 2469 2 := by
    rw [Rat.divInt_eq_div]
    norm_num
  refine ⟨?_, by rw [hval]; decide, by rw [hval]; decide, by rw [hval]; decide, by decide⟩
  intro s
  simp [normalize_amount, List.filter_filter]

/-! ## The bank-statement period (claim C9)

`szkb_provider.py` collects every `DD.MM.YYYY`-shaped substring and takes
the reporting period from `sorted(dates)`, i.e. from the lexicographic
string ordering.  Python's string comparison is code-point lexicographic;
it is modelled by `lexLe` below. -/

/-- Code-point lexicographic order on character lists (Python string
comparison `<=`). -/
def lexLe : List Char → List Char → Bool
  | [], _ => true
  | _ :: _, [] => false
  | a :: s, b :: t =>
    if a.toNat < b.toNat then true
    else if b.toNat < a.toNat then false
    else lexLe s t

theorem lexLe_refl (l : List Char) : lexLe l l = true := by
  induction l with
  | nil => rfl
  | cons a t ih => simp [lexLe, ih]

theorem lexLe_total (a b : List Char) : lexLe a b = true ∨ lexLe b a = true := by
  induction a generalizing b with
  | nil => left; rfl
  | cons x s ih =>
    cases b with
    | nil => right; rfl
    | cons y t =>
      by_cases h1 : x.toNat < y.toNat
      · left
        simp [lexLe, h1]
      · by_cases h2 : y.toNat < x.toNat
        · right
          simp [lexLe, h2]
        · rcases ih t with h | h
          · left
            simp [lexLe, h1, h2, h]
          · right
            simp [lexLe, h1, h2, h]

theorem lexLe_trans (a b c : List Char) (hab : lexLe a b = true) (hbc : lexLe b c = true) :
    lexLe a c = true := by
  induction a generalizing b c with
  | nil => rfl
  | cons x s ih =>
    cases b with
    | nil => simp [lexLe] at hab
    | cons y t =>
      cases c with
      | nil => simp [lexLe] at hbc
      | cons z u =>
        simp only [lexLe] at hab hbc ⊢
        split_ifs at hab hbc ⊢ <;>
          first
            | rfl
            | omega
            | exact hab
            | exact hbc
            | exact ih t u hab hbc

/-- The lexicographic order on strings used by `sorted(dates)`. -/
def strLexLe (a b : String) : Prop :=
  lexLe a.data b.data = true

instance : DecidableRel strLexLe := by
  intro a b
  unfold strLexLe
  infer_instance

instance : IsTotal String strLexLe :=
  ⟨fun a b => lexLe_total a.data b.data⟩

instance : IsTrans String strLexLe :=
  ⟨fun a b c => lexLe_trans a.data b.data c.data⟩

/-- `find_period_from_dates` from `szkb_provider.py`: `(None, None)` on an
empty date list, otherwise the first and last element of `sorted(dates)`
(Python's sort orders strings lexicographically; on strings any correct
ascending sort produces the same list, modelled here with insertion
sort). -/
def find_period_from_dates (dates : List String) : Option String × Option String :=
  match dates with
  | [] => (none, none)
  | _ :: _ =>
    let dates_sorted := List.insertionSort strLexLe dates
    (dates_sorted.head?, dates_sorted.getLast?)

/-- Word characters for the regex boundary `\b` (ASCII `\w`). -/
def isWordChar (c : Char) : Bool :=
  c.isAlphanum || c == '_'

/-- Scanner for `re.findall(r"\b(\d{2}\.\d{2}\.\d{4})\b", text)`: walks the
text remembering the previous character (for the left word boundary),
emits each 10-character date shape whose neighbours are not word
characters, and resumes after each match. -/
def find_all_dates_aux : Option Char → List Char → List String
  | prev, d1 :: d2 :: '.' :: m1 :: m2 :: '.' :: y1 :: y2 :: y3 :: y4 :: rest =>
    if (match prev with | none => true | some c => !isWordChar c) &&
        d1.isDigit && d2.isDigit && m1.isDigit && m2.isDigit &&
        y1.isDigit && y2.isDigit && y3.isDigit && y4.isDigit &&
        (match rest with | [] => true | c :: _ => !isWordChar c) then
      String.mk [d1, d2, '.', m1, m2, '.', y1, y2, y3, y4] ::
        find_all_dates_aux (some y4) rest
    else
      find_all_dates_aux (some d1) (d2 :: '.' :: m1 :: m2 :: '.' :: y1 :: y2 :: y3 :: y4 :: rest)
  | prev, c :: t => find_all_dates_aux (some c) t
  | _, [] => []

/-- `find_all_dates` from `szkb_provider.py`. -/
def find_all_dates (text : String) : List String :=
  find_all_dates_aux none text.data

theorem sorted_head_lexLe (s : List String)
    (hs : List.Pairwise strLexLe s) (a : String) (ha : s.head? = some a)
    (x : String) (hx : x ∈ s) : lexLe a.data x.data = true := by
  cases s with
  | nil => simp at ha
  | cons b t =>
    simp only [List.head?_cons, Option.some.injEq] at ha
    subst ha
    rcases List.mem_cons.1 hx with rfl | hx
    · exact lexLe_refl _
    · exact (List.pairwise_cons.1 hs).1 x hx

theorem sorted_getLast_lexLe (s : List String)
    (hs : List.Pairwise strLexLe s) (b : String) (hb : s.getLast? = some b)
    (x : String) (hx : x ∈ s) : lexLe x.data b.data = true := by
  induction s with
  | nil => simp at hb
  | cons a t ih =>
    cases t with
    | nil =>
      simp only [List.getLast?_singleton, Option.some.injEq] at hb
      subst hb
      simp only [List.mem_singleton] at hx
      subst hx
      exact lexLe_refl _
    | cons c u =>
      rw [List.getLast?_cons_cons] at hb
      rcases List.mem_cons.1 hx with rfl | hx
      · have hbmem : b ∈ c :: u := List.mem_of_getLast?_eq_some hb
        exact (List.pairwise_cons.1 hs).1 b hbmem
      · exact ih (List.pairwise_cons.1 hs).2 hb hx

/-- C9 (amended): for every nonempty list of collected date substrings,
`find_period_from_dates` returns the minimum and the maximum of the list
under the lexicographic string ordering (but this ordering does not in
general coincide with chronological ordering of `DD.MM.YYYY` dates; see
the counterexample). -/
theorem find_period_lex_min_max (dates : List String) (h : dates ≠ []) :
    ∃ a b, find_period_from_dates dates = (some a, some b) ∧ a ∈ dates ∧ b ∈ dates ∧
      ∀ x ∈ dates, lexLe a.data x.data = true ∧ lexLe x.data b.data = true := by
  obtain ⟨d, ds, rfl⟩ := List.exists_cons_of_ne_nil h
  have hperm : (List.insertionSort strLexLe (d :: ds)).Perm (d :: ds) :=
    List.perm_insertionSort strLexLe (d :: ds)
  have hsorted : List.Pairwise strLexLe (List.insertionSort strLexLe (d :: ds)) :=
    List.sorted_insertionSort strLexLe (d :: ds)
  have hne : List.insertionSort strLexLe (d :: ds) ≠ [] := by
    intro hnil
    have := hperm.length_eq
    rw [hnil] at this
    simp at this
  obtain ⟨a, s, hs⟩ := List.exists_cons_of_ne_nil hne
  have hhead : (List.insertionSort strLexLe (d :: ds)).head? = some a := by
    rw [hs]
    rfl
  have hlast : ∃ b, (List.insertionSort strLexLe (d :: ds)).getLast? = some b := by
    rw [hs]
    exact ⟨(a :: s).getLast (by simp), List.getLast?_eq_getLast _ _⟩
  obtain ⟨b, hb⟩ := hlast
  refine ⟨a, b, ?_, ?_, ?_, ?_⟩
  · rw [find_period_from_dates, hhead, hb]
  · exact hperm.mem_iff.1 (by rw [hs]; simp)
  · exact hperm.mem_iff.1 (List.mem_of_getLast?_eq_some hb)
  · intro x hx
    have hx' : x ∈ List.insertionSort strLexLe (d :: ds) := hperm.mem_iff.2 hx
    exact ⟨sorted_head_lexLe _ hsorted a hhead x hx',
      sorted_getLast_lexLe _ hsorted b hb x hx'⟩

/-- Witness for the lexicographic-period theorem on a concrete pair of
collected dates. -/
theorem find_period_lex_min_max_witness :
    (["31.01.2025", "01.02.2025"] : List String) ≠ [] ∧
    (∃ a b, find_period_from_dates ["31.01.2025", "01.02.2025"] = (some a, some b) ∧
      a ∈ (["31.01.2025", "01.02.2025"] : List String) ∧
      b ∈ (["31.01.2025", "01.02.2025"] : List String) ∧
      ∀ x ∈ (["31.01.2025", "01.02.2025"] : List String),
        lexLe a.data x.data = true ∧ lexLe x.data b.data = true) :=
  ⟨List.cons_ne_nil _ _,
    find_period_lex_min_max ["31.01.2025", "01.02.2025"] (List.cons_ne_nil _ _)⟩

/-- Chronological (year, month, day) order on parsed dates. -/
def chronoLt (d e : PyDate) : Prop :=
  d.year < e.year ∨ (d.year = e.year ∧ (d.month < e.month ∨ (d.month = e.month ∧ d.day < e.day)))

/-- C9 (counterexample): on a statement text containing the dates
31.01.2025 and 01.02.2025, the scanner collects both, and the reported
period is (from, to) = ("01.02.2025", "31.01.2025") — the lexicographic
minimum and maximum — although chronologically 31.01.2025 precedes
01.02.2025.  Lexicographic order on zero-padded `DD.MM.YYYY` compares the
day first and so does not coincide with chronological order. -/
theorem find_period_not_chronological :
    find_all_dates "31.01.2025 01.02.2025" = ["31.01.2025", "01.02.2025"] ∧
    find_period_from_dates ["31.01.2025", "01.02.2025"] =
      (some "01.02.2025", some "31.01.2025") ∧
    parse_dmy (some "31.01.2025") = some ⟨2025, 1, 31⟩ ∧
    parse_dmy (some "01.02.2025") = some ⟨2025, 2, 1⟩ ∧
    chronoLt ⟨2025, 1, 31⟩ ⟨2025, 2, 1⟩ := by
  refine ⟨by decide, by decide, by decide, by decide, ?_⟩
  right
  exact ⟨rfl, Or.inl (by decide)⟩

/-! ## Regex building blocks shared by the extractors

The concrete patterns of the providers are implemented as executable
matchers with the backtracking-preference semantics of the Python `re`
module: greedy pieces offer their candidate splits longest-first and the
first combination that lets the rest of the pattern succeed wins. -/

/-- Candidate remainders for a greedy `\s*`, longest run first. -/
def wsStarCandidates (cs : List Char) : List (List Char) :=
  ((List.range ((cs.takeWhile pyWhitespace).length + 1)).reverse).map fun k => cs.drop k

/-- Candidate remainders for a greedy `\s+` (at least one character),
longest run first. -/
def wsPlusCandidates (cs : List Char) : List (List Char) :=
  (((List.range ((cs.takeWhile pyWhitespace).length + 1)).reverse).dropLast).map fun k =>
    cs.drop k

/-- The character class `[0-9' ]`. -/
def isAmtChar (c : Char) : Bool :=
  c.isDigit || c == Char.ofNat 39 || c == ' '

/-- The character class `[0-9' .]`. -/
def isAmtDotChar (c : Char) : Bool :=
  c.isDigit || c == Char.ofNat 39 || c == ' ' || c == '.'

/-- Candidate matches of `[0-9' ]+\.\d{2}` at the head of `cs`, greedy
order (the class part as long as possible): each candidate is the matched
prefix and the remainder. -/
def amtDotCandidates (cs : List Char) : List (List Char × List Char) :=
  let L := (cs.takeWhile isAmtChar).length
  ((List.range (L + 1)).reverse).filterMap fun m =>
    if 1 ≤ m && cs.getD m ' ' == '.' && (cs.getD (m + 1) ' ').isDigit &&
        (cs.getD (m + 2) ' ').isDigit then
      some (cs.take (m + 3), cs.drop (m + 3))
    else none

/-- Candidate matches of `[0-9' .]+\d{2}` at the head of `cs`, greedy
order. -/
def amtACandidates (cs : List Char) : List (List Char × List Char) :=
  let L := (cs.takeWhile isAmtDotChar).length
  ((List.range (L + 1)).reverse).filterMap fun m =>
    if 1 ≤ m && (cs.getD m ' ').isDigit && (cs.getD (m + 1) ' ').isDigit then
      some (cs.take (m + 2), cs.drop (m + 2))
    else none

/-- Leftmost-match scanning: try the matcher at every suffix, left to
right (the `re.search` strategy). -/
def scanFirst {β : Type} (f : List Char → Option β) : List Char → Option β
  | [] => f []
  | c :: t =>
    match f (c :: t) with
    | some r => some r
    | none => scanFirst f t

/-- Python `str.splitlines()` for the line separators occurring in
extracted text (`\n`, `\r`, `\r\n`); no trailing empty line. -/
def splitlinesAux : List Char → List Char → List (List Char)
  | acc, [] => if acc.isEmpty then [] else [acc.reverse]
  | acc, '\r' :: '\n' :: t => acc.reverse :: splitlinesAux [] t
  | acc, '\n' :: t => acc.reverse :: splitlinesAux [] t
  | acc, '\r' :: t => acc.reverse :: splitlinesAux [] t
  | acc, c :: t => splitlinesAux (c :: acc) t

def splitlines (cs : List Char) : List (List Char) :=
  splitlinesAux [] cs

/-! ## The bank-statement closing balance (`find_saldo`, claim C5) -/

/-- One match of the fallback pattern `(Saldo.*)` (case-insensitive) at
the head of `cs`: the group runs to the end of the line (`.` does not
cross `\n`), and scanning resumes after it. -/
def matchSaldoAt (cs : List Char) : Option (List Char × List Char) :=
  match cs with
  | a :: b :: c :: d :: e :: rest =>
    if upperList [a, b, c, d, e] == "SALDO".data then
      some ([a, b, c, d, e] ++ rest.takeWhile (fun ch => !(ch == Char.ofNat 10)),
        rest.dropWhile (fun ch => !(ch == Char.ofNat 10)))
    else none
  | _ => none

/-- `re.findall(r"(Saldo.*)", text, re.IGNORECASE)`, with fuel bounded by
the text length (every step consumes at least one character). -/
def findallSaldoFuel : Nat → List Char → List (List Char)
  | 0, _ => []
  | _, [] => []
  | fuel + 1, c :: t =>
    match matchSaldoAt (c :: t) with
    | some (g, rest) => g :: findallSaldoFuel fuel rest
    | none => findallSaldoFuel fuel t

def findallSaldo (cs : List Char) : List (List Char) :=
  findallSaldoFuel cs.length cs

/-- The second capture group `([+-]?[0-9' ]+\.\d{2})` at the head of `cs`
(sign preferred present; a failing signed branch cannot be rescued by the
unsigned one, since a sign character is not in the amount class). -/
def matchGroup2 (cs : List Char) : Option (List Char) :=
  match cs with
  | '+' :: t =>
    match (amtDotCandidates t).head? with
    | some pr => some ('+' :: pr.1)
    | none => none
  | '-' :: t =>
    match (amtDotCandidates t).head? with
    | some pr => some ('-' :: pr.1)
    | none => none
  | t =>
    match (amtDotCandidates t).head? with
    | some pr => some pr.1
    | none => none

/-- The amount pattern of `find_saldo` with its optional first group,
`([+-]?\s*CHF\s*)?([+-]?[0-9' ]+\.\d{2})`, tried with the prefix group
present (regex preference for `(...)?`). -/
def matchWithGroup1 (cs : List Char) : Option (List Char) :=
  let afterSign : List (List Char) :=
    match cs with
    | '+' :: t => [t, cs]
    | '-' :: t => [t, cs]
    | _ => [cs]
  afterSign.findSome? fun cs1 =>
    (wsStarCandidates cs1).findSome? fun cs2 =>
      match cs2 with
      | 'C' :: 'H' :: 'F' :: cs3 => (wsStarCandidates cs3).findSome? fun cs4 => matchGroup2 cs4
      | _ => none

def matchSaldoAmountAt (cs : List Char) : Option (List Char) :=
  match matchWithGroup1 cs with
  | some g => some g
  | none => matchGroup2 cs

/-- Leftmost search of the saldo amount pattern in one line. -/
def findSaldoAmount : List Char → Option (List Char)
  | [] => none
  | c :: t =>
    match matchSaldoAmountAt (c :: t) with
    | some g => some g
    | none => findSaldoAmount t

/-- `find_saldo` from `szkb_provider.py`: collect the lines containing
"Schlusssaldo" (case-insensitively); if there are none, fall back to every
`(Saldo.*)` match in the whole text; take the last such line and extract
the second group of the amount pattern, stripped. -/
def find_saldo (text : String) : Option String :=
  let keywordLines := (splitlines text.data).filter fun l =>
    containsSub (upperList "Schlusssaldo".data) (upperList l)
  let lines := if keywordLines.isEmpty then findallSaldo text.data else keywordLines
  match lines.getLast? with
  | none => none
  | some last_line =>
    match findSaldoAmount last_line with
    | none => none
    | some amt => some (pyStrip (String.mk amt))

/-- A field value of an extraction record (Python dict values are strings
or numbers here). -/
inductive Val where
  | s (v : String)
  | q (v : ℚ)
deriving DecidableEq

/-- `SZKBProvider.parse_invoice` from `szkb_provider.py`: the record
actually returned — keys `from_date`, `to_date`, `saldo`, `file` (the
docstring promises `date` and `amount` entries as well, but the code does
not produce them). -/
def szkb_parse_invoice (text filename : String) : List (String × Val) :=
  let dates := find_all_dates text
  let vonBis := find_period_from_dates dates
  let saldo_num : ℚ :=
    match find_saldo text with
    | some saldo_str =>
      if saldo_str.data.isEmpty then 0 else (normalize_amount saldo_str).getD 0
    | none => 0
  [("from_date", Val.s (vonBis.1.getD "")), ("to_date", Val.s (vonBis.2.getD "")),
    ("saldo", Val.q saldo_num), ("file", Val.s filename)]

/-- C5 (code bug): the SZKB extraction record never contains the generic
keys `date` and `amount` that the claim (and the provider's own docstring
and the base-class contract) require — it carries only `from_date`,
`to_date`, `saldo` and `file` — while the card extraction record does
carry `date`, `amount` and `file` on every input. -/
theorem szkb_record_missing_generic_keys :
    (∀ text filename : String,
        (szkb_parse_invoice text filename).lookup "date" = none ∧
        (szkb_parse_invoice text filename).lookup "amount" = none ∧
        (szkb_parse_invoice text filename).lookup "file" = some (Val.s filename)) ∧
    szkb_parse_invoice "" "konto.pdf" =
      [("from_date", Val.s ""), ("to_date", Val.s ""), ("saldo", Val.q 0),
        ("file", Val.s "konto.pdf")] := by
  constructor
  · intro text filename
    refine ⟨?_, ?_, ?_⟩ <;> simp [szkb_parse_invoice, List.lookup]
  · decide

/-! ## The card five-amount block (claim C7) -/

/-- The repetition `(?:\s+CHF\s*[0-9' .]+\d{2}){k}` with backtracking. -/
def matchBlockTail : Nat → List Char → Option (List Char)
  | 0, cs => some cs
  | k + 1, cs =>
    (wsPlusCandidates cs).findSome? fun cs1 =>
      match cs1 with
      | 'C' :: 'H' :: 'F' :: cs2 =>
        (wsStarCandidates cs2).findSome? fun cs3 =>
          (amtACandidates cs3).findSome? fun pr => matchBlockTail k pr.2
      | _ => none

/-- The capture group `(CHF\s*[0-9' .]+\d{2}(?:\s+CHF\s*[0-9' .]+\d{2}){4})`
anchored at the head of `cs`: the matched prefix, with backtracking. -/
def blockAt (cs : List Char) : Option (List Char) :=
  match cs with
  | 'C' :: 'H' :: 'F' :: cs2 =>
    ((wsStarCandidates cs2).findSome? fun cs3 =>
        (amtACandidates cs3).findSome? fun pr => matchBlockTail 4 pr.2).map fun rest =>
      cs.take (cs.length - rest.length)
  | _ => none

/-- The lazy `.*?` before the group: the block match starting at the
earliest possible position. -/
def findBlockFrom : List Char → Option (List Char)
  | [] => none
  | c :: t =>
    match blockAt (c :: t) with
    | some g => some g
    | none => findBlockFrom t

/-- The remainder of the text after the first occurrence of `marker`
(`re.search` anchors the whole pattern at the first marker occurrence:
any block following a later occurrence also follows the first one). -/
def dropThroughMarker (marker : List Char) : List Char → Option (List Char)
  | [] => none
  | c :: t =>
    if marker.isPrefixOf (c :: t) then some ((c :: t).drop marker.length)
    else dropThroughMarker marker t

/-- One match of `CHF\s*([0-9' .]+\d{2})`: the group and the remainder. -/
def matchAmountAt (cs : List Char) : Option (List Char × List Char) :=
  match cs with
  | 'C' :: 'H' :: 'F' :: cs2 =>
    (wsStarCandidates cs2).findSome? fun cs3 => (amtACandidates cs3).head?
  | _ => none

/-- `re.findall(r"CHF\s*([0-9' .]+\d{2})", line)`, fuel bounded by the
line length. -/
def findallAmountsFuel : Nat → List Char → List String
  | 0, _ => []
  | _, [] => []
  | fuel + 1, c :: t =>
    match matchAmountAt (c :: t) with
    | some (g, rest) => String.mk g :: findallAmountsFuel fuel rest
    | none => findallAmountsFuel fuel t

def findallAmounts (cs : List Char) : List String :=
  findallAmountsFuel cs.length cs

/-- `find_betraege_block` from `swisscard_provider.py`: search (with
`re.S`) for `Mindestzahlung.*?(CHF amount (\s+CHF amount){4})`, then
`findall` the amounts inside the group and insist on exactly five. -/
def find_betraege_block (text : String) : Option (List String) :=
  match dropThroughMarker "Mindestzahlung".data text.data with
  | none => none
  | some after =>
    match findBlockFrom after with
    | none => none
    | some grp =>
      let amounts := findallAmounts grp
      if amounts.length = 5 then some amounts else none

/-- The date-shape `\d{2}\.\d{2}\.\d{4}` at the head of `cs` (no word
boundaries — the `Rechnungsdatum` pattern has none). -/
def matchDateShape (cs : List Char) : Option String :=
  match cs with
  | d1 :: d2 :: '.' :: m1 :: m2 :: '.' :: y1 :: y2 :: y3 :: y4 :: _ =>
    if d1.isDigit && d2.isDigit && m1.isDigit && m2.isDigit && y1.isDigit && y2.isDigit &&
        y3.isDigit && y4.isDigit then
      some (String.mk [d1, d2, '.', m1, m2, '.', y1, y2, y3, y4])
    else none
  | _ => none

/-- `Rechnungsdatum\s+(\d{2}\.\d{2}\.\d{4})` at the head of `cs`
(the `\s+` is effectively exact: a digit is not whitespace). -/
def matchRechnungsdatumAt (cs : List Char) : Option String :=
  if ("Rechnungsdatum".data).isPrefixOf cs then
    let cs1 := cs.drop ("Rechnungsdatum".data).length
    let k := (cs1.takeWhile pyWhitespace).length
    if 1 ≤ k then matchDateShape (cs1.drop k) else none
  else none

/-- `find_rechnungsdatum` from `swisscard_provider.py`: the labelled date,
else the first word-bounded date anywhere. -/
def find_rechnungsdatum (text : String) : Option String :=
  match scanFirst matchRechnungsdatumAt text.data with
  | some d => some d
  | none => (find_all_dates text).head?

/-- `SwisscardProvider.parse_invoice` from `swisscard_provider.py`: on a
parsed five-amount block the emitted amount is the fourth entry (the new
balance); otherwise an "empty" record with amount 0.0.  (The block
function only ever produces five-element lists, so the fallback arm also
covers the `if not betraege` early return.) -/
def swisscard_parse_invoice (text filename : String) : List (String × Val) :=
  let rechnungsdatum := (find_rechnungsdatum text).getD ""
  match find_betraege_block text with
  | some (_saldo_letzte :: _zahlungen :: _total_trans :: neuer_saldo :: _mindest :: []) =>
    [("date", Val.s rechnungsdatum), ("amount", Val.q ((normalize_amount neuer_saldo).getD 0)),
      ("file", Val.s filename)]
  | _ =>
    [("date", Val.s rechnungsdatum), ("amount", Val.q 0), ("file", Val.s filename)]

/-- The card extraction record carries the generic keys on every input
(contrast for claim C5). -/
theorem swisscard_record_has_generic_keys (text filename : String) :
    ((swisscard_parse_invoice text filename).lookup "date").isSome = true ∧
    ((swisscard_parse_invoice text filename).lookup "amount").isSome = true ∧
    (swisscard_parse_invoice text filename).lookup "file" = some (Val.s filename) := by
  unfold swisscard_parse_invoice
  split <;> simp [List.lookup]

/-- Witness for the record-shape contrast at a concrete input. -/
theorem swisscard_record_has_generic_keys_witness :
    ((swisscard_parse_invoice "" "card.pdf").lookup "date").isSome = true ∧
    ((swisscard_parse_invoice "" "card.pdf").lookup "amount").isSome = true ∧
    (swisscard_parse_invoice "" "card.pdf").lookup "file" = some (Val.s "card.pdf") :=
  swisscard_record_has_generic_keys "" "card.pdf"

/-- A card text whose minimum-payment block carries exactly five amounts. -/
def cardText5 : String :=
  "Mindestzahlung CHF 1.00 CHF 2.00 CHF 3.00 CHF 4.00 CHF 5.00"

/-- A card text with only four amounts after the marker. -/
def cardText4 : String :=
  "Mindestzahlung CHF 1.00 CHF 2.00 CHF 3.00 CHF 4.00"

/-- A card text with six amounts after the marker. -/
def cardText6 : String :=
  "Mindestzahlung CHF 1.00 CHF 2.00 CHF 3.00 CHF 4.00 CHF 5.00 CHF 6.00"

/-- C7 (counterexample): on a text with six amounts after the
minimum-payment marker, the block extraction does not fail — the
five-amount repetition of the regex matches the first five amounts and
the six-amount tail yields a truncated list, not `none`. -/
theorem find_betraege_block_six_amounts :
    find_betraege_block cardText6 = some ["1.00", "2.00", "3.00", "4.00", "5.00"] ∧
    find_betraege_block cardText6 ≠ none := by
  have h : find_betraege_block cardText6 = some ["1.00", "2.00", "3.00", "4.00", "5.00"] := by
    decide
  exact ⟨h, by rw [h]; simp⟩

/-- C7 (amended): with exactly five amounts after the marker the ordered
five-element list is returned (and the parse emits the fourth amount, the
new balance); with fewer than five the whole block extraction fails with
`none`; with more than five the first five are returned — not `none`. -/
theorem find_betraege_block_behaviour :
    find_betraege_block cardText5 = some ["1.00", "2.00", "3.00", "4.00", "5.00"] ∧
    find_betraege_block cardText4 = none ∧
    find_betraege_block cardText6 = some ["1.00", "2.00", "3.00", "4.00", "5.00"] ∧
    swisscard_parse_invoice cardText5 "card.pdf" =
      [("date", Val.s ""), ("amount", Val.q 4), ("file", Val.s "card.pdf")] := by
  refine ⟨by decide, by decide, by decide, by decide⟩

end RechnungenSort
